import Mathlib

/-!
Verification development for the Order-management backend
(src/backend/routes/orders.cjs, src/backend/redis.cjs and the route
variants in src/unnamed).  The handlers are shallowly embedded as pure
Lean functions over an explicit relational store and an explicit cache
environment.  The authoritative file for the embedding is
src/backend/routes/orders.cjs (the SQL/pg variant); divergences of the
Prisma variants are noted where relevant.
-/

/-- Status column of the orders table: the only two values ever written
by the code are the literals PENDING (at INSERT) and CONFIRMED (by the
deferred confirmation job). -/
inductive Status where
  | PENDING
  | CONFIRMED
  deriving DecidableEq, Repr

/-- Row of the read-only users table: id, email, name. -/
structure UserRow where
  id : Int
  email : List Char
  name : List Char
  deriving DecidableEq, Repr

/-- Row of the read-only products table: id, name, price. -/
structure ProductRow where
  id : Int
  name : List Char
  price : Int
  deriving DecidableEq, Repr

/-- Row of the orders table: orders(id, user_id, status, created_at).
Timestamps are modelled as integers. -/
structure OrderRow where
  id : Int
  userId : Int
  status : Status
  createdAt : Int
  deriving DecidableEq, Repr

/-- Row of the order_items table: order_items(id, order_id, product_id,
quantity). -/
structure ItemRow where
  id : Int
  orderId : Int
  productId : Int
  quantity : Int
  deriving DecidableEq, Repr

/-- The relational store: the four tables named in the spec, in table
(insertion) order, plus the next serial ids for the two writable
tables. -/
structure Store where
  users : List UserRow
  products : List ProductRow
  orders : List OrderRow
  items : List ItemRow
  nextOrderId : Int
  nextItemId : Int
  deriving DecidableEq, Repr

/-- Whitespace test used by JavaScript String.prototype.trim (restricted
to the common ASCII whitespace characters). -/
def isWs (c : Char) : Bool :=
  c == ' ' || c == '\t' || c == '\n' || c == '\r'

/-- JavaScript String.prototype.trim on a character list: drop leading
and trailing whitespace.  The handlers apply this to the raw q query
parameter: q = (req.query.q or empty).trim(). -/
def trimChars (s : List Char) : List Char :=
  ((s.dropWhile isWs).reverse.dropWhile isWs).reverse

/-- Lower-casing of a character list, modelling the case folding that
Postgres ILIKE applies to both operands. -/
def lowerList (s : List Char) : List Char :=
  s.map Char.toLower

/-- All suffixes of a character list, longest first, ending with the
empty suffix. -/
def sfx : List Char → List (List Char)
  | [] => [[]]
  | c :: s => (c :: s) :: sfx s

/-- SQL LIKE pattern matching over character lists, with the default
Postgres escape character (backslash): a backslash makes the following
pattern character match itself literally, a percent sign matches any
(possibly empty) sequence - rendered as matching the rest of the pattern
against some suffix of the subject - an underscore matches exactly one
character, and any other pattern character matches itself.  This is the
semantics Postgres applies to u.email ILIKE $1 after case folding.  A
dangling escape at the end of a pattern is an error in Postgres and is
modelled as matching nothing; the patterns the handler builds always end
in a percent sign, so the case is unreachable there. -/
def likeMatch : List Char → List Char → Bool
  | [], s => s.isEmpty
  | p :: ps, s =>
    if p = '\\' then
      match ps with
      | [] => false
      | e :: ps2 =>
        match s with
        | [] => false
        | d :: s2 => (e == d) && likeMatch ps2 s2
    else if p = '%' then
      (sfx s).any (fun s2 => likeMatch ps s2)
    else
      match s with
      | [] => false
      | d :: s2 => (p == '_' || p == d) && likeMatch ps s2

/-- The pattern the handler builds for the search parameter: the SQL
query receives the string percent-q-percent. -/
def likePat (q : List Char) : List Char :=
  '%' :: (q ++ ['%'])

/-- Postgres ILIKE: case-insensitive LIKE, modelled by lower-casing both
the pattern and the subject before LIKE matching. -/
def ilike (pat s : List Char) : Bool :=
  likeMatch (lowerList pat) (lowerList s)

/-- Plain substring containment on character lists: t occurs contiguously
somewhere inside s. -/
def isSubstr (t s : List Char) : Bool :=
  (sfx s).any (fun s2 => t.isPrefixOf s2)

/-- Case-insensitive substring containment, the relation the spec uses
to describe search matching. -/
def containsCI (t s : List Char) : Bool :=
  isSubstr (lowerList t) (lowerList s)

/-- True when the character list contains no SQL LIKE wildcard character
and no escape character: no percent sign, no underscore and no
backslash.  Only for such terms does the raw interpolation into the
ILIKE pattern coincide with substring containment. -/
def noWild (t : List Char) : Bool :=
  t.all (fun c => !(c == '%') && !(c == '_') && !(c == '\\'))

/-- Row of the search predicate of the listing query (orders.cjs, the
WHERE clause of totalSql and listSql): the order must inner-join its
user row; when q is non-empty the user email must ILIKE the pattern, or
some order_items row of the order must join a products row whose name
ILIKE the pattern.  When q is empty there is no WHERE clause, only the
inner JOIN on users. -/
def rowMatches (s : Store) (q : List Char) (o : OrderRow) : Bool :=
  match s.users.find? (fun u => u.id == o.userId) with
  | none => false
  | some u =>
    q.isEmpty || ilike (likePat q) u.email ||
      (s.items.filter (fun it => it.orderId == o.id)).any
        (fun it =>
          match s.products.find? (fun p => p.id == it.productId) with
          | some p => ilike (likePat q) p.name
          | none => false)

/-- Modelled from the spec: the search predicate written the way the
spec words it - case-insensitive substring containment on the user email
or on some item product name, every order matching when the term is
empty.  Declared for comparison against rowMatches, which is transcribed
from the SQL of the source. -/
def specMatches (s : Store) (q : List Char) (o : OrderRow) : Bool :=
  match s.users.find? (fun u => u.id == o.userId) with
  | none => false
  | some u =>
    q.isEmpty || containsCI q u.email ||
      (s.items.filter (fun it => it.orderId == o.id)).any
        (fun it =>
          match s.products.find? (fun p => p.id == it.productId) with
          | some p => containsCI q p.name
          | none => false)

/-- Stable descending insertion on createdAt: the new row goes in front
of the first strictly older row; rows with an equal or newer timestamp
are kept in front of it. -/
def insertDesc (o : OrderRow) : List OrderRow → List OrderRow
  | [] => [o]
  | x :: xs =>
    if x.createdAt ≤ o.createdAt then o :: x :: xs else x :: insertDesc o xs

/-- ORDER BY o.created_at DESC, modelled as a stable sort of the table:
rows are ordered by createdAt descending and rows with equal timestamps
keep their table (insertion) order.  SQL leaves the relative order of
ties unspecified; the source adds no secondary sort key. -/
def sortDesc : List OrderRow → List OrderRow
  | [] => []
  | x :: xs => insertDesc x (sortDesc xs)

/-- Product snapshot embedded in an item of the response payload. -/
structure ProdOut where
  id : Int
  name : List Char
  price : Int
  deriving DecidableEq, Repr

/-- Item of the response payload: id, quantity, joined product
snapshot. -/
structure ItemOut where
  id : Int
  quantity : Int
  product : ProdOut
  deriving DecidableEq, Repr

/-- User snapshot embedded in a row of the response payload. -/
structure UserOut where
  id : Int
  email : List Char
  name : List Char
  deriving DecidableEq, Repr

/-- Row of the listing response: order fields, user snapshot, joined
item list. -/
structure OrderOut where
  id : Int
  status : Status
  created_at : Int
  user : UserOut
  items : List ItemOut
  deriving DecidableEq, Repr

/-- Join of one order_items row with its products row (the items query
of the GET handler joins products, so an item whose product row is
missing is dropped by the inner join). -/
def itemOut (s : Store) (it : ItemRow) : Option ItemOut :=
  (s.products.find? (fun p => p.id == it.productId)).map
    (fun p => ⟨it.id, it.quantity, ⟨p.id, p.name, p.price⟩⟩)

/-- Item list of one order in the response: the order_items rows of the
order, joined with products. -/
def itemsOutOf (s : Store) (oid : Int) : List ItemOut :=
  (s.items.filter (fun it => it.orderId == oid)).filterMap (itemOut s)

/-- Denormalized response row for one orders row: the inner JOIN with
users drops a row whose user is missing, hence the Option. -/
def rowOut (s : Store) (o : OrderRow) : Option OrderOut :=
  (s.users.find? (fun u => u.id == o.userId)).map
    (fun u => ⟨o.id, o.status, o.createdAt, ⟨u.id, u.email, u.name⟩,
               itemsOutOf s o.id⟩)

/-- Listing response payload: total, page, limit, data. -/
structure Payload where
  total : Nat
  page : Int
  limit : Int
  data : List OrderOut
  deriving DecidableEq, Repr

/-- The listing query of the GET handler with the cache stripped away:
total is COUNT over the whole filtered set, data is the filtered set
ordered by created_at descending, sliced with OFFSET (page-1)*limit and
LIMIT limit, then denormalized. -/
def queryOrders (s : Store) (page lim : Int) (q : List Char) : Payload :=
  let off := ((page - 1) * lim).toNat
  let matched := s.orders.filter (rowMatches s q)
  let rows := ((sortDesc matched).drop off).take lim.toNat
  { total := matched.length
    page := page
    limit := lim
    data := rows.filterMap (rowOut s) }

/-- Outcome of a cache substrate call.  The redis.cjs helpers call the
client directly and do not catch, so an unavailable cache surfaces as a
rejected promise, modelled by the error branch. -/
def CacheCall (α : Type) : Type := Except Unit α

/-- The cache substrate as seen by the handlers: cacheGet (returns the
parsed payload or null), cacheSet (30 second TTL, set unconditionally),
and the prefix bulk delete helper of redis.cjs (keys prefix-star, then
del). -/
structure CacheEnv where
  get : String → CacheCall (Option Payload)
  set : String → Payload → CacheCall Unit
  delPfx : String → CacheCall Unit

/-- Cache key built by both handlers:
orders:list:p=(page):l=(limit):q=(trimmed term). -/
def listKey (page lim : Int) (q : List Char) : String :=
  "orders:list:p=" ++ toString page ++ ":l=" ++ toString lim ++ ":q=" ++
    String.mk q

/-- Effective page number: parseInt(req.query.page or 1), clamped from
below to 1 by Math.max. -/
def effPage (pageQ : Option Int) : Int :=
  max (pageQ.getD 1) 1

/-- Effective limit: parseInt(req.query.limit or 10), clamped from below
to 1 by Math.max. -/
def effLimit (limitQ : Option Int) : Int :=
  max (limitQ.getD 10) 1

/-- HTTP outcome of the GET /orders handler.  The handler has no 400
path at all; every throw inside its try block (including a cache
rejection) lands in the catch and answers 500. -/
inductive ListResult where
  | ok (p : Payload)
  | badRequest
  | internalError
  deriving DecidableEq, Repr

/-- The GET /orders handler of orders.cjs: clamp page and limit, trim q,
consult the cache (a hit short-circuits), on miss run the query, store
the payload, answer it.  Every rejection inside the try block - cacheGet
as well as cacheSet - is caught and answered as 500. -/
def listOrders (c : CacheEnv) (s : Store) (pageQ limitQ : Option Int)
    (qRaw : List Char) : ListResult :=
  let page := effPage pageQ
  let lim := effLimit limitQ
  let q := trimChars qRaw
  match c.get (listKey page lim q) with
  | .error _ => .internalError
  | .ok (some cached) => .ok cached
  | .ok none =>
    let payload := queryOrders s page lim q
    match c.set (listKey page lim q) payload with
    | .error _ => .internalError
    | .ok _ => .ok payload

/-- One requested line item of the POST body: fields may be absent in
JSON, hence Option. -/
structure ReqItem where
  product_id : Option Int
  quantity : Option Int
  deriving DecidableEq, Repr

/-- The POST /orders body: user_id and items, either possibly absent or
malformed (a non-array items field is modelled as absent). -/
structure CreateReq where
  user_id : Option Int
  items : Option (List ReqItem)
  deriving DecidableEq, Repr

/-- The only input validation of the POST handler in orders.cjs:
not user_id (JavaScript falsy, so absent or zero), items not an array,
or items empty - each answered with the 400 message
(user_id and items are required).  Nothing else is validated: item
quantities, product ids and the sign of user_id all pass.  The Prisma
variant in src/unnamed/part_001 additionally checks each item for a
truthy product_id and a positive quantity; the variant embedded here is
the authoritative src/backend file. -/
def validReq (r : CreateReq) : Bool :=
  (match r.user_id with
   | none => false
   | some uid => uid != 0) &&
  (match r.items with
   | none => false
   | some l => !l.isEmpty)

/-- INSERT INTO orders (user_id, status) VALUES ($1, PENDING).
Modelled from the spec: the foreign-key constraint that user_id must
reference an existing users row lives in the relational schema, which is
not under src/; per the spec every order references an existing user, so
the insert fails (none) when the reference dangles.  On success the new
row takes the next serial id and the current timestamp. -/
def insertOrder (s : Store) (uid : Int) (now : Int) :
    Option (Store × OrderRow) :=
  if s.users.any (fun u => u.id == uid) then
    let o : OrderRow := ⟨s.nextOrderId, uid, .PENDING, now⟩
    some ({ s with orders := s.orders ++ [o],
                   nextOrderId := s.nextOrderId + 1 }, o)
  else none

/-- The multi-row INSERT INTO order_items, one row per requested item.
Modelled from the spec: the schema (not under src/) requires product_id
and quantity to be present (NOT NULL) and product_id to reference an
existing products row, so the statement fails (none) when any item
violates that; the whole statement fails or succeeds as one, which
inside the transaction is equivalent to this sequential model.  No
constraint on the sign of quantity is modelled. -/
def insertItems (s : Store) (oid : Int) : List ReqItem → Option Store
  | [] => some s
  | it :: rest =>
    match it.product_id, it.quantity with
    | some pid, some qty =>
      if s.products.any (fun p => p.id == pid) then
        insertItems
          { s with items := s.items ++ [⟨s.nextItemId, oid, pid, qty⟩],
                   nextItemId := s.nextItemId + 1 } oid rest
      else none
    | _, _ => none

/-- The BEGIN..COMMIT body of the POST handler: insert the orders row,
then the order_items rows.  none models a failure of any statement, in
which case the handler issues ROLLBACK and the store is unchanged -
callers of this function return the original store on none. -/
def runCreateTxn (s : Store) (r : CreateReq) (now : Int) :
    Option (Store × OrderRow) :=
  match r.user_id, r.items with
  | some uid, some its =>
    match insertOrder s uid now with
    | none => none
    | some (s1, o) =>
      match insertItems s1 o.id its with
      | none => none
      | some s2 => some (s2, o)
  | _, _ => none

/-- HTTP outcome of the POST /orders handler.  The code can only answer
the created order (res.json with the order spread plus the raw items),
400 with the fixed validation message, or 500; the notFound constructor
exists so that the absence of any not-found answer is statable - no code
path produces it. -/
inductive CreateResult where
  | created (o : OrderRow) (items : List ReqItem)
  | badRequest
  | notFound (msg : String)
  | internalError
  deriving DecidableEq, Repr

/-- The POST /orders handler of orders.cjs: validate (400 before any
store access), run the transaction (any failure rolls back to the
original store and answers 500), after COMMIT invalidate the listing
cache prefix - a cache rejection at that point is caught by the same
catch block, so the handler answers 500 even though the transaction has
already committed (the ROLLBACK issued by the catch after COMMIT is a
no-op). -/
def createOrder (c : CacheEnv) (s : Store) (r : CreateReq) (now : Int) :
    Store × CreateResult :=
  if validReq r then
    match runCreateTxn s r now with
    | none => (s, .internalError)
    | some (s2, o) =>
      match c.delPfx "orders:list:" with
      | .error _ => (s2, .internalError)
      | .ok _ => (s2, .created o (r.items.getD []))
  else (s, .badRequest)

/-- The body of the deferred confirmation job: UPDATE orders SET
status=CONFIRMED WHERE id=$1 - an unconditional write that touches only
the row with the given id and re-validates nothing. -/
def confirmOrder (s : Store) (oid : Int) : Store :=
  { s with
    orders := s.orders.map (fun o =>
      if o.id == oid then { o with status := .CONFIRMED } else o) }

/-- Delay of the confirmation job as scheduled by the handler:
setTimeout(..., 2000). -/
def confirmDelayMs : Nat := 2000

/-- Store-mutating events of the system in scope: a creation request and
the firing of a confirmation job.  These are the only two writers of the
orders table in the source. -/
inductive Event where
  | createE (r : CreateReq) (now : Int)
  | confirmE (oid : Int)

/-- Effect of one event on the store: a creation applies the transaction
when validation passes and it succeeds (otherwise the store is
unchanged, by rollback); a confirmation job applies its UPDATE.  The
cache is irrelevant to the store contents, so it is elided here: in
createOrder the store outcome is the same for every cache environment. -/
def stepStore (s : Store) : Event → Store
  | .createE r now =>
    if validReq r then
      match runCreateTxn s r now with
      | some (s2, _) => s2
      | none => s
    else s
  | .confirmE oid => confirmOrder s oid

/-- SELECT of one orders row by id. -/
def lookupOrder (s : Store) (oid : Int) : Option OrderRow :=
  s.orders.find? (fun o => o.id == oid)

/-- Serial-id well-formedness of the store: every existing orders row
has an id below the next serial value, so a freshly inserted row can
never collide with an existing one. -/
def wfStore (s : Store) : Bool :=
  s.orders.all (fun o => o.id < s.nextOrderId)

/-- A cache environment in which every call succeeds and every get
misses: the store-only path. -/
def envOk : CacheEnv :=
  ⟨fun _ => .ok none, fun _ _ => .ok (), fun _ => .ok ()⟩

/-- A cache environment in which every call is rejected: an unavailable
cache substrate. -/
def envBad : CacheEnv :=
  ⟨fun _ => .error (), fun _ _ => .error (), fun _ => .error ()⟩

/-- The empty store. -/
def stEmpty : Store := ⟨[], [], [], [], 1, 1⟩

/-- Fixture user, as in the spec examples: id 1, email a@x.com. -/
def uA : UserRow := ⟨1, "a@x.com".toList, "A".toList⟩

/-- Fixture product, as in the spec examples: id 1, name Widget. -/
def pA : ProductRow := ⟨1, "Widget".toList, 5⟩

/-- Fixture store holding only user 1 and product 1: the state before
any order exists. -/
def stBase : Store := ⟨[uA], [pA], [], [], 1, 1⟩

/-- Fixture store holding user 1 but no products, so that any item
insertion fails on its product reference. -/
def stNoProd : Store := ⟨[uA], [], [], [], 1, 1⟩

/-- Fixture store with two orders carrying the same creation timestamp,
ids 1 and 2 inserted in that order, for the tie-break analysis. -/
def stTie : Store :=
  ⟨[uA], [pA], [⟨1, 1, .PENDING, 5⟩, ⟨2, 1, .PENDING, 5⟩],
   [⟨1, 1, 1, 2⟩], 3, 2⟩

/-- Fixture store whose single user has email axb, for the wildcard
search analysis. -/
def stWild : Store :=
  ⟨[⟨1, "axb".toList, "B".toList⟩], [], [⟨1, 1, .PENDING, 0⟩], [], 2, 1⟩

/-- Fixture store equal to stBase after one committed creation at
timestamp 7 of one item of product 1, quantity 2. -/
def stAfter : Store :=
  ⟨[uA], [pA], [⟨1, 1, .PENDING, 7⟩], [⟨1, 1, 1, 2⟩], 2, 2⟩

theorem any_ext {α : Type} (l : List α) (f g : α → Bool)
    (h : ∀ x ∈ l, f x = g x) : l.any f = l.any g := by
  induction l with
  | nil => rfl
  | cons a t ih =>
    simp only [List.any_cons]
    rw [h a (by simp), ih (fun x hx => h x (by simp [hx]))]

/-- C1: when item insertion fails after the orders row was inserted
inside the transaction, the POST handler issues ROLLBACK and answers
500: the returned store is exactly the original one (no orders row and
no order_items row of the attempt persists) and the caller receives the
internal error. -/
theorem createOrder_rolls_back_on_item_failure
    (c : CacheEnv) (s : Store) (r : CreateReq) (now : Int)
    (uid : Int) (its : List ReqItem) (s1 : Store) (o : OrderRow)
    (hv : validReq r = true)
    (hu : r.user_id = some uid) (hi : r.items = some its)
    (ho : insertOrder s uid now = some (s1, o))
    (hf : insertItems s1 o.id its = none) :
    createOrder c s r now = (s, .internalError) := by
  unfold createOrder runCreateTxn
  rw [hv, hu, hi]
  simp [ho, hf]

/-- Witness for C1 at a concrete input: store with user 1 and no
products, one requested item referencing product 5; the orders insert
succeeds, the items insert fails on the dangling product reference, the
attempt is rolled back and answered 500. -/
theorem createOrder_rolls_back_on_item_failure_witness :
    createOrder envOk stNoProd ⟨some 1, some [⟨some 5, some 2⟩]⟩ 0 =
      (stNoProd, .internalError) :=
  createOrder_rolls_back_on_item_failure envOk stNoProd
    ⟨some 1, some [⟨some 5, some 2⟩]⟩ 0 1 [⟨some 5, some 2⟩]
    { stNoProd with orders := [⟨1, 1, .PENDING, 0⟩], nextOrderId := 2 }
    ⟨1, 1, .PENDING, 0⟩ (by decide) rfl rfl (by decide) (by decide)

/-- Counterexample for C4: the code performs no existence check and
produces no not-found error.  With user 1 and product 1 present, the
request for the unknown user 999 (the exact example of the spec, which
demands a NotFoundError naming user 999) is answered with the generic
internal error after the transaction rolls back: the handler result is
internalError, not a notFound value. -/
theorem createOrder_unknown_user_not_notFound_cx :
    createOrder envOk stBase ⟨some 999, some [⟨some 1, some 1⟩]⟩ 0 =
      (stBase, .internalError) := by decide

/-- C4 amended: a creation request whose user_id references no existing
user passes the input validation, fails inside the transaction on the
dangling reference, is rolled back (the store is returned unchanged) and
is answered with the generic internal error; no not-found error naming
the invalid reference is produced, because no existence check precedes
the write. -/
theorem createOrder_unknown_user_internal
    (c : CacheEnv) (s : Store) (r : CreateReq) (now : Int) (uid : Int)
    (hv : validReq r = true)
    (hu : r.user_id = some uid)
    (hmiss : s.users.any (fun u => u.id == uid) = false) :
    createOrder c s r now = (s, .internalError) := by
  have hins : insertOrder s uid now = none := by
    unfold insertOrder
    rw [hmiss]
    rfl
  unfold createOrder runCreateTxn
  rw [hv, hu]
  rcases hr : r.items with _ | its
  · simp
  · simp [hins]

/-- Witness for C4 amended at the concrete spec example input. -/
theorem createOrder_unknown_user_internal_witness :
    createOrder envOk stBase ⟨some 999, some [⟨some 1, some 1⟩]⟩ 1 =
      (stBase, .internalError) :=
  createOrder_unknown_user_internal envOk stBase
    ⟨some 999, some [⟨some 1, some 1⟩]⟩ 1 999 (by decide) rfl (by decide)

/-- Counterexample for C5: the claim demands a validation error, before
any mutation, for every non-positive userId.  The negative user_id -1 is
truthy in JavaScript, so it passes the only validation check of the
handler; the transaction then fails on the dangling reference and the
caller receives the internal error, not the validation error. -/
theorem createOrder_negative_user_not_validated_cx :
    createOrder envOk stBase ⟨some (-1), some [⟨some 1, some 1⟩]⟩ 0 =
      (stBase, .internalError) := by decide

/-- C5 amended: the POST handler rejects with the 400 validation answer,
with the store untouched, exactly the requests in which user_id is
missing or zero (JavaScript falsy), or items is missing (not an array)
or empty; item quantities, item product ids and the sign of user_id are
not validated. -/
theorem createOrder_validation_characterization
    (c : CacheEnv) (s : Store) (r : CreateReq) (now : Int) :
    (validReq r = false → createOrder c s r now = (s, .badRequest)) ∧
    (validReq r = true → (createOrder c s r now).2 ≠ .badRequest) ∧
    (validReq r = true ↔
      (∃ uid, r.user_id = some uid ∧ uid ≠ 0) ∧
      (∃ its, r.items = some its ∧ its ≠ [])) := by
  refine ⟨?_, ?_, ?_⟩
  · intro h
    unfold createOrder
    rw [h]
    rfl
  · intro h
    unfold createOrder
    rw [h]
    rcases htxn : runCreateTxn s r now with _ | ⟨s2, o⟩
    · simp
    · rcases hdel : c.delPfx "orders:list:" with _ | u
      · simp [hdel]
      · simp [hdel]
  · unfold validReq
    rcases r with ⟨_ | uid, _ | its⟩ <;> simp

/-- Witness for C5 amended: the empty request is rejected with 400 and
no mutation, and a well-formed request is never answered 400. -/
theorem createOrder_validation_characterization_witness :
    createOrder envOk stBase ⟨none, none⟩ 0 = (stBase, .badRequest) :=
  (createOrder_validation_characterization envOk stBase ⟨none, none⟩ 0).1
    (by decide)

theorem listOrders_miss (c : CacheEnv) (s : Store) (pq lq : Option Int)
    (qRaw : List Char)
    (hg : c.get (listKey (effPage pq) (effLimit lq) (trimChars qRaw)) =
            .ok none)
    (hs : c.set (listKey (effPage pq) (effLimit lq) (trimChars qRaw))
            (queryOrders s (effPage pq) (effLimit lq) (trimChars qRaw)) =
            .ok ()) :
    listOrders c s pq lq qRaw =
      .ok (queryOrders s (effPage pq) (effLimit lq) (trimChars qRaw)) := by
  simp [listOrders, hg, hs]

/-- C9 amended: the GET handler never answers a validation error at all:
non-positive page and limit values are clamped to 1 by Math.max rather
than rejected, and with a reachable cache the handler answers 200 with
the query payload for every store, including stores with no matching
orders (empty data is an ordinary payload). -/
theorem listOrders_clamps_never_validation_error (c : CacheEnv) (s : Store)
    (pq lq : Option Int) (qRaw : List Char) (p : Int) :
    (listOrders c s pq lq qRaw ≠ .badRequest) ∧
    (p ≤ 0 → effPage (some p) = 1 ∧ effLimit (some p) = 1) ∧
    (c.get (listKey (effPage pq) (effLimit lq) (trimChars qRaw)) = .ok none →
     c.set (listKey (effPage pq) (effLimit lq) (trimChars qRaw))
       (queryOrders s (effPage pq) (effLimit lq) (trimChars qRaw)) = .ok () →
     listOrders c s pq lq qRaw =
       .ok (queryOrders s (effPage pq) (effLimit lq) (trimChars qRaw))) := by
  refine ⟨?_, ?_, ?_⟩
  · rcases hget : c.get (listKey (effPage pq) (effLimit lq) (trimChars qRaw))
      with e | oc
    · simp [listOrders, hget]
    · rcases oc with _ | cached
      · rcases hset : c.set
            (listKey (effPage pq) (effLimit lq) (trimChars qRaw))
            (queryOrders s (effPage pq) (effLimit lq) (trimChars qRaw))
          with e2 | u
        · simp [listOrders, hget, hset]
        · simp [listOrders, hget, hset]
      · simp [listOrders, hget]
  · intro hp
    constructor
    · unfold effPage
      simp only [Option.getD_some]
      exact max_eq_right (by omega)
    · unfold effLimit
      simp only [Option.getD_some]
      exact max_eq_right (by omega)
  · intro hg hs
    exact listOrders_miss c s pq lq qRaw hg hs

/-- Witness for C9 amended at a concrete input: page 0 on the empty
store is answered 200 with the page-1 payload. -/
theorem listOrders_clamps_never_validation_error_witness :
    listOrders envOk stEmpty (some 0) (some 10) [] =
      .ok (queryOrders stEmpty (effPage (some 0)) (effLimit (some 10))
            (trimChars [])) :=
  (listOrders_clamps_never_validation_error envOk stEmpty (some 0) (some 10)
    [] 0).2.2 rfl rfl

/-- Counterexample for C9: the claim demands a validation error exactly
when page or limit is non-positive, but the request with page 0 is
answered 200 with the payload of page 1, not with a validation error. -/
theorem listOrders_nonpositive_page_ok_cx :
    listOrders envOk stEmpty (some 0) (some 10) [] =
      .ok ⟨0, 1, 10, []⟩ := by decide

/-- C10: the GET handler normalizes instead of failing: every page value
at most 0 behaves exactly like page 1, an absent page defaults to 1, an
absent limit defaults to 10, and the search term is trimmed before both
the cache-key derivation and the query, so two calls whose terms trim to
the same string return the same answer and address the same cache
key. -/
theorem listOrders_normalization (c : CacheEnv) (s : Store)
    (pq lq : Option Int) (qRaw : List Char) (p : Int) (q1 q2 : List Char) :
    (p ≤ 0 →
      listOrders c s (some p) lq qRaw = listOrders c s (some 1) lq qRaw) ∧
    (listOrders c s none lq qRaw = listOrders c s (some 1) lq qRaw) ∧
    (listOrders c s pq none qRaw = listOrders c s pq (some 10) qRaw) ∧
    (trimChars q1 = trimChars q2 →
      listOrders c s pq lq q1 = listOrders c s pq lq q2 ∧
      listKey (effPage pq) (effLimit lq) (trimChars q1) =
        listKey (effPage pq) (effLimit lq) (trimChars q2)) := by
  refine ⟨?_, ?_, ?_, ?_⟩
  · intro hp
    have h1 : effPage (some p) = effPage (some 1) := by
      unfold effPage
      simp only [Option.getD_some]
      rw [max_eq_right (by omega : p ≤ 1), max_self]
    unfold listOrders
    rw [h1]
  · rfl
  · rfl
  · intro h
    constructor
    · unfold listOrders
      rw [h]
    · rw [h]

/-- Witness for C10 at concrete inputs: page -3 with the term padded by
whitespace answers exactly like page 1 with the trimmed term. -/
theorem listOrders_normalization_witness :
    listOrders envOk stEmpty (some (-3)) (some 10) " w ".toList =
      listOrders envOk stEmpty (some 1) (some 10) "w".toList :=
  Eq.trans
    ((listOrders_normalization envOk stEmpty (some 1) (some 10) " w ".toList
        (-3) " w ".toList "w".toList).1 (by decide))
    (((listOrders_normalization envOk stEmpty (some 1) (some 10) " w ".toList
        (-3) " w ".toList "w".toList).2.2.2 (by decide)).1)

/-- C2: on the path where the engine actually runs (the cache misses and
the cache write succeeds), the GET handler with page at least 1 and
limit at least 1 answers the engine payload, whose data holds at most
limit rows and whose total is the count of the matching orders over the
whole store - an expression independent of the requested page. -/
theorem listOrders_page_bound_and_total (c : CacheEnv) (s : Store)
    (page lim : Int) (qRaw : List Char)
    (hp : 1 ≤ page) (hl : 1 ≤ lim)
    (hg : c.get (listKey page lim (trimChars qRaw)) = .ok none)
    (hs : c.set (listKey page lim (trimChars qRaw))
            (queryOrders s page lim (trimChars qRaw)) = .ok ()) :
    listOrders c s (some page) (some lim) qRaw =
      .ok (queryOrders s page lim (trimChars qRaw)) ∧
    (queryOrders s page lim (trimChars qRaw)).data.length ≤ lim.toNat ∧
    (queryOrders s page lim (trimChars qRaw)).total =
      (s.orders.filter (rowMatches s (trimChars qRaw))).length := by
  have hep : effPage (some page) = page := by
    unfold effPage
    simp only [Option.getD_some]
    exact max_eq_left hp
  have hel : effLimit (some lim) = lim := by
    unfold effLimit
    simp only [Option.getD_some]
    exact max_eq_left hl
  refine ⟨?_, ?_, ?_⟩
  · have h := listOrders_miss c s (some page) (some lim) qRaw
      (by rw [hep, hel]; exact hg) (by rw [hep, hel]; exact hs)
    rw [hep, hel] at h
    exact h
  · have hdata : (queryOrders s page lim (trimChars qRaw)).data =
        (((sortDesc (s.orders.filter (rowMatches s (trimChars qRaw)))).drop
            ((page - 1) * lim).toNat).take lim.toNat).filterMap (rowOut s) :=
      rfl
    rw [hdata]
    refine le_trans (List.length_filterMap_le _ _) ?_
    rw [List.length_take]
    exact min_le_left _ _
  · rfl

/-- Witness for C2 at a concrete input: page 2, limit 1 on the store
with two orders; the miss path answers the engine payload with one data
row and total 2. -/
theorem listOrders_page_bound_and_total_witness :
    listOrders envOk stTie (some 2) (some 1) [] =
      .ok (queryOrders stTie 2 1 (trimChars [])) ∧
    (queryOrders stTie 2 1 (trimChars [])).data.length ≤ (1 : Int).toNat ∧
    (queryOrders stTie 2 1 (trimChars [])).total =
      (stTie.orders.filter (rowMatches stTie (trimChars []))).length :=
  listOrders_page_bound_and_total envOk stTie 2 1 [] (by decide) (by decide)
    rfl rfl

/-- C8 amended: a cache failure is not isolated by the handlers - the
try/catch of each handler spans the cache calls, so a rejected cacheGet
or cacheSet makes the listing answer 500 instead of falling through to
the store, and a rejected cacheDelByPrefix after COMMIT makes the
creation answer 500 even though the order and its items are already
persisted (the ROLLBACK issued after COMMIT is a no-op). -/
theorem cache_failure_causes_internal_error (c : CacheEnv) (s : Store)
    (pq lq : Option Int) (qRaw : List Char) (r : CreateReq) (now : Int) :
    (c.get (listKey (effPage pq) (effLimit lq) (trimChars qRaw)) =
        .error () →
      listOrders c s pq lq qRaw = .internalError) ∧
    (c.get (listKey (effPage pq) (effLimit lq) (trimChars qRaw)) =
        .ok none →
      c.set (listKey (effPage pq) (effLimit lq) (trimChars qRaw))
          (queryOrders s (effPage pq) (effLimit lq) (trimChars qRaw)) =
        .error () →
      listOrders c s pq lq qRaw = .internalError) ∧
    (∀ s2 o, validReq r = true → runCreateTxn s r now = some (s2, o) →
      c.delPfx "orders:list:" = .error () →
      createOrder c s r now = (s2, .internalError)) := by
  refine ⟨?_, ?_, ?_⟩
  · intro hg
    simp [listOrders, hg]
  · intro hg hs
    simp [listOrders, hg, hs]
  · intro s2 o hv htxn hdel
    unfold createOrder
    rw [hv]
    simp [htxn, hdel]

/-- Witness for C8 amended with the always-failing cache substrate: the
listing answers 500, and the creation answers 500 while the committed
store stAfter retains the new order and item. -/
theorem cache_failure_causes_internal_error_witness :
    listOrders envBad stBase (some 2) (some 5) [] = .internalError ∧
    createOrder envBad stBase ⟨some 1, some [⟨some 1, some 2⟩]⟩ 7 =
      (stAfter, .internalError) :=
  ⟨(cache_failure_causes_internal_error envBad stBase (some 2) (some 5) []
      ⟨some 1, some [⟨some 1, some 2⟩]⟩ 7).1 rfl,
   (cache_failure_causes_internal_error envBad stBase (some 2) (some 5) []
      ⟨some 1, some [⟨some 1, some 2⟩]⟩ 7).2.2 stAfter ⟨1, 1, .PENDING, 7⟩
     (by decide) (by decide) rfl⟩

/-- Counterexample for C8: the claim says a cache failure never makes
the request fail and the caller gets the same result as with no cache;
with the failing substrate the same request on the same store is
answered 500, while the store-only path answers the payload. -/
theorem cache_failure_not_isolated_cx :
    listOrders envBad stEmpty (some 1) (some 10) [] = .internalError ∧
    listOrders envOk stEmpty (some 1) (some 10) [] = .ok ⟨0, 1, 10, []⟩ := by
  decide

theorem confirm_id_pres (oid : Int) (o : OrderRow) :
    ((if o.id == oid then { o with status := Status.CONFIRMED } else o) :
      OrderRow).id = o.id := by
  split <;> rfl

theorem lookup_confirmOrder (s : Store) (oid t : Int) :
    lookupOrder (confirmOrder s oid) t =
      (lookupOrder s t).map
        (fun o => if o.id == oid then { o with status := .CONFIRMED }
                  else o) := by
  unfold lookupOrder confirmOrder
  simp only [List.find?_map]
  have hfun : ((fun (o : OrderRow) => o.id == t) ∘ fun (o : OrderRow) =>
      if o.id == oid then { o with status := Status.CONFIRMED } else o) =
      (fun (o : OrderRow) => o.id == t) := by
    funext o
    simp only [Function.comp_apply, confirm_id_pres]
  rw [hfun]

theorem insertItems_pres (oid : Int) (its : List ReqItem) :
    ∀ (s s2 : Store), insertItems s oid its = some s2 →
      s2.orders = s.orders ∧ s2.nextOrderId = s.nextOrderId := by
  induction its with
  | nil =>
    intro s s2 h
    unfold insertItems at h
    cases h
    exact ⟨rfl, rfl⟩
  | cons it rest ih =>
    intro s s2 h
    rcases it with ⟨_ | pid, _ | qty⟩
    · simp [insertItems] at h
    · simp [insertItems] at h
    · simp [insertItems] at h
    · simp only [insertItems] at h
      by_cases hp : s.products.any (fun p => p.id == pid) = true
      · rw [if_pos hp] at h
        exact ⟨(ih _ _ h).1, (ih _ _ h).2⟩
      · rw [if_neg hp] at h
        cases h

theorem insertOrder_spec (s : Store) (uid now : Int) (s1 : Store)
    (o : OrderRow) (h : insertOrder s uid now = some (s1, o)) :
    o = ⟨s.nextOrderId, uid, .PENDING, now⟩ ∧
    s1 = { s with orders := s.orders ++ [o],
                  nextOrderId := s.nextOrderId + 1 } := by
  unfold insertOrder at h
  by_cases hu : s.users.any (fun u => u.id == uid) = true
  · rw [if_pos hu] at h
    cases h
    exact ⟨rfl, rfl⟩
  · rw [if_neg hu] at h
    cases h

theorem runCreateTxn_spec (s : Store) (r : CreateReq) (now : Int)
    (s2 : Store) (o : OrderRow)
    (h : runCreateTxn s r now = some (s2, o)) :
    o.id = s.nextOrderId ∧ o.status = .PENDING ∧
    s2.orders = s.orders ++ [o] ∧ s2.nextOrderId = s.nextOrderId + 1 := by
  unfold runCreateTxn at h
  rcases r with ⟨_ | uid, _ | its⟩
  · cases h
  · cases h
  · cases h
  · dsimp only at h
    rcases hins : insertOrder s uid now with _ | ⟨s1, o1⟩
    · rw [hins] at h
      cases h
    · rw [hins] at h
      dsimp only at h
      rcases hit : insertItems s1 o1.id its with _ | s3
      · rw [hit] at h
        cases h
      · rw [hit] at h
        cases h
        have hio := insertOrder_spec s uid now s1 o hins
        have hpres := insertItems_pres o.id its s1 s2 hit
        refine ⟨?_, ?_, ?_, ?_⟩
        · rw [hio.1]
        · rw [hio.1]
        · rw [hpres.1, hio.2]
        · rw [hpres.2, hio.2]

theorem lookup_create_step (s : Store) (r : CreateReq) (now : Int)
    (oid : Int) (o : OrderRow)
    (h1 : lookupOrder s oid = some o) :
    lookupOrder (stepStore s (.createE r now)) oid = some o := by
  have hstep : stepStore s (.createE r now) =
      (if validReq r then
        match runCreateTxn s r now with
        | some (s2, _) => s2
        | none => s
      else s) := rfl
  rw [hstep]
  by_cases hv : validReq r = true
  · rw [if_pos hv]
    rcases htxn : runCreateTxn s r now with _ | ⟨s3, o3⟩
    · exact h1
    · dsimp only
      have hs3 := runCreateTxn_spec s r now s3 o3 htxn
      unfold lookupOrder
      rw [hs3.2.2.1, List.find?_append]
      unfold lookupOrder at h1
      rw [h1]
      rfl
  · rw [if_neg hv]
    exact h1

theorem step_preserves_confirmed (s : Store) (e : Event) (oid : Int)
    (o : OrderRow)
    (h1 : lookupOrder s oid = some o) (hc : o.status = .CONFIRMED) :
    ∃ o2, lookupOrder (stepStore s e) oid = some o2 ∧
      o2.status = .CONFIRMED := by
  cases e with
  | createE r now =>
    exact ⟨o, lookup_create_step s r now oid o h1, hc⟩
  | confirmE tid =>
    refine ⟨if o.id == tid then { o with status := .CONFIRMED } else o,
            ?_, ?_⟩
    · have hstep : stepStore s (.confirmE tid) = confirmOrder s tid := rfl
      rw [hstep, lookup_confirmOrder, h1]
      rfl
    · split
      · rfl
      · exact hc

theorem step_status_change (s : Store) (e : Event) (oid : Int)
    (o o2 : OrderRow)
    (h1 : lookupOrder s oid = some o)
    (h2 : lookupOrder (stepStore s e) oid = some o2) :
    o2.status = o.status ∨ (o.status = .PENDING ∧ o2.status = .CONFIRMED) := by
  cases e with
  | createE r now =>
    rw [lookup_create_step s r now oid o h1] at h2
    cases h2
    exact Or.inl rfl
  | confirmE tid =>
    have hstep : stepStore s (.confirmE tid) = confirmOrder s tid := rfl
    rw [hstep, lookup_confirmOrder, h1] at h2
    cases h2
    dsimp only
    split
    · cases hos : o.status
      · exact Or.inr ⟨rfl, rfl⟩
      · exact Or.inl rfl
    · exact Or.inl rfl

theorem trace_preserves_confirmed (evs : List Event) :
    ∀ (s : Store) (oid : Int) (o : OrderRow),
      lookupOrder s oid = some o → o.status = .CONFIRMED →
      ∃ o2, lookupOrder (List.foldl stepStore s evs) oid = some o2 ∧
        o2.status = .CONFIRMED := by
  induction evs with
  | nil =>
    intro s oid o h hc
    exact ⟨o, h, hc⟩
  | cons e rest ih =>
    intro s oid o h hc
    rcases step_preserves_confirmed s e oid o h hc with ⟨o2, h2, hc2⟩
    exact ih (stepStore s e) oid o2 h2 hc2

/-- C6: the order status machine.  In a store with well-formed serial
ids: the scheduling delay constant is the fixed 2000 milliseconds; a
successful creation transaction yields an order whose status is PENDING
and which is stored as such; the confirmation event unconditionally sets
the status of its target order to CONFIRMED; any single event either
leaves a stored order status unchanged or moves it from PENDING to
CONFIRMED (no other transition exists); and over any event sequence a
CONFIRMED order stays CONFIRMED - it never reverts to PENDING. -/
theorem order_status_machine (s : Store) (hwf : wfStore s = true) :
    confirmDelayMs = 2000 ∧
    (∀ r now s2 o, runCreateTxn s r now = some (s2, o) →
      o.status = .PENDING ∧ lookupOrder s2 o.id = some o) ∧
    (∀ oid o, lookupOrder s oid = some o →
      lookupOrder (stepStore s (.confirmE oid)) oid =
        some { o with status := .CONFIRMED }) ∧
    (∀ e oid o o2, lookupOrder s oid = some o →
      lookupOrder (stepStore s e) oid = some o2 →
      o2.status = o.status ∨
        (o.status = .PENDING ∧ o2.status = .CONFIRMED)) ∧
    (∀ (evs : List Event) (oid : Int) (o : OrderRow),
      lookupOrder s oid = some o → o.status = .CONFIRMED →
      ∃ o2, lookupOrder (List.foldl stepStore s evs) oid = some o2 ∧
        o2.status = .CONFIRMED) := by
  refine ⟨rfl, ?_, ?_, ?_, ?_⟩
  · intro r now s2 o h
    have hs := runCreateTxn_spec s r now s2 o h
    refine ⟨hs.2.1, ?_⟩
    unfold lookupOrder
    rw [hs.2.2.1, List.find?_append]
    have hnone : s.orders.find? (fun x => x.id == o.id) = none := by
      rw [List.find?_eq_none]
      intro x hx
      have hx2 : x.id < s.nextOrderId := by
        have := List.all_eq_true.mp hwf x hx
        exact of_decide_eq_true this
      simp only [beq_iff_eq, hs.1]
      omega
    rw [hnone]
    simp [List.find?]
  · intro oid o h
    have hfind : List.find? (fun x : OrderRow => x.id == oid) s.orders =
        some o := h
    have hp := List.find?_some hfind
    have heq : o.id = oid := by simpa using hp
    have hstep : stepStore s (.confirmE oid) = confirmOrder s oid := rfl
    rw [hstep, lookup_confirmOrder, h]
    simp [heq]
  · intro e oid o o2 h1 h2
    exact step_status_change s e oid o o2 h1 h2
  · intro evs oid o h hc
    exact trace_preserves_confirmed evs s oid o h hc

/-- Witness for C6 at a concrete input: in the two-order fixture store,
firing the confirmation job for order 1 stores it as CONFIRMED. -/
theorem order_status_machine_witness :
    lookupOrder (stepStore stTie (.confirmE 1)) 1 =
      some ⟨1, 1, .CONFIRMED, 5⟩ :=
  (order_status_machine stTie (by decide)).2.2.1 1 ⟨1, 1, .PENDING, 5⟩ rfl

theorem likeMatch_pct (ps s : List Char) :
    likeMatch ('%' :: ps) s = (sfx s).any (fun s2 => likeMatch ps s2) := by
  rw [likeMatch.eq_def]
  simp

theorem likeMatch_nil_pct (s : List Char) : likeMatch ['%'] s = true := by
  induction s with
  | nil => rfl
  | cons c s ih =>
    rw [likeMatch_pct, sfx, List.any_cons]
    have ih2 : (sfx s).any (fun s2 => likeMatch [] s2) = true := by
      rw [← likeMatch_pct]
      exact ih
    rw [ih2]
    simp

theorem isPrefixOf_nil_left (s : List Char) :
    List.isPrefixOf ([] : List Char) s = true := by
  cases s <;> rfl

theorem likeMatch_free_pfx (t : List Char) :
    ∀ s : List Char, noWild t = true →
      likeMatch (t ++ ['%']) s = t.isPrefixOf s := by
  induction t with
  | nil =>
    intro s _
    rw [List.nil_append, likeMatch_nil_pct, isPrefixOf_nil_left]
  | cons c t ih =>
    intro s h
    rw [noWild, List.all_cons] at h
    simp only [Bool.and_eq_true] at h
    rcases h with ⟨⟨⟨hc1, hc2⟩, hc3⟩, ht'⟩
    have hc : ¬ c = '%' := by simpa using hc1
    have hu : (c == '_') = false := by simpa using hc2
    have hce : ¬ c = '\\' := by simpa using hc3
    have ht : noWild t = true := ht'
    cases s with
    | nil =>
      rw [List.cons_append, likeMatch.eq_def]
      dsimp only
      rw [if_neg hce, if_neg hc]
      rfl
    | cons d s2 =>
      rw [List.cons_append, likeMatch.eq_def]
      dsimp only
      rw [if_neg hce, if_neg hc]
      show ((c == '_' || c == d) && likeMatch (t ++ ['%']) s2) =
        (c :: t).isPrefixOf (d :: s2)
      rw [hu, ih s2 ht, Bool.false_or]
      rfl

theorem likeMatch_pat_substr (t s : List Char) (h : noWild t = true) :
    likeMatch ('%' :: (t ++ ['%'])) s = isSubstr t s := by
  rw [likeMatch_pct]
  unfold isSubstr
  exact any_ext _ _ _ (fun x _ => likeMatch_free_pfx t x h)

theorem lowerList_likePat (q : List Char) :
    lowerList (likePat q) = likePat (lowerList q) := by
  unfold likePat lowerList
  rw [List.map_cons, List.map_append]
  rfl

theorem ilike_eq_containsCI (q x : List Char)
    (h : noWild (lowerList q) = true) :
    ilike (likePat q) x = containsCI q x := by
  unfold ilike containsCI
  rw [lowerList_likePat]
  exact likeMatch_pat_substr (lowerList q) (lowerList x) h

/-- Counterexample for C3: a search term containing a SQL wildcard or
escape character is interpolated raw into the ILIKE pattern.  For the
term a-percent-b and the user email axb the order is included by the
code although the email does not contain the term as a substring; and
for the term a-backslash-b the backslash acts as the LIKE escape
character, so the pattern matches the email ab although ab does not
contain the term either.  Both refute the claimed equivalence with
case-insensitive substring containment. -/
theorem wildcard_term_not_substring_cx :
    rowMatches stWild ['a', '%', 'b'] ⟨1, 1, .PENDING, 0⟩ = true ∧
    containsCI ['a', '%', 'b'] "axb".toList = false ∧
    specMatches stWild ['a', '%', 'b'] ⟨1, 1, .PENDING, 0⟩ = false ∧
    (queryOrders stWild 1 10 ['a', '%', 'b']).total = 1 ∧
    ilike (likePat ['a', '\\', 'b']) "ab".toList = true ∧
    containsCI ['a', '\\', 'b'] "ab".toList = false := by
  decide

/-- C3 amended: provided the (lower-cased) term contains no SQL LIKE
wildcard character (percent or underscore) and no escape character
(backslash), an order is included by the search exactly when its user
email contains the term as a case-insensitive substring or some item
product name does, and an empty term matches every order that joins its
user row; terms containing wildcard or escape characters are matched
with LIKE-pattern semantics (backslash escaping the next character)
instead of substring containment. -/
theorem rowMatches_eq_specMatches (s : Store) (q : List Char)
    (o : OrderRow) (h : noWild (lowerList q) = true) :
    rowMatches s q o = specMatches s q o := by
  unfold rowMatches specMatches
  rcases hfu : s.users.find? (fun u => u.id == o.userId) with _ | u
  · rw [hfu]
  · rw [hfu]
    dsimp only
    rw [ilike_eq_containsCI q u.email h]
    have hany : (s.items.filter (fun it => it.orderId == o.id)).any
        (fun it =>
          match s.products.find? (fun p => p.id == it.productId) with
          | some p => ilike (likePat q) p.name
          | none => false) =
        (s.items.filter (fun it => it.orderId == o.id)).any
        (fun it =>
          match s.products.find? (fun p => p.id == it.productId) with
          | some p => containsCI q p.name
          | none => false) := by
      apply any_ext
      intro it _
      rcases hfp : s.products.find? (fun p => p.id == it.productId)
        with _ | p
      · rw [hfp]
      · rw [hfp]
        exact ilike_eq_containsCI q p.name h
    rw [hany]

/-- Witness for C3 amended at a concrete wildcard-free term. -/
theorem rowMatches_eq_specMatches_witness :
    noWild (lowerList "widget".toList) = true ∧
    rowMatches stTie "widget".toList ⟨1, 1, .PENDING, 5⟩ =
      specMatches stTie "widget".toList ⟨1, 1, .PENDING, 5⟩ :=
  ⟨by decide,
   rowMatches_eq_specMatches stTie "widget".toList ⟨1, 1, .PENDING, 5⟩
     (by decide)⟩

theorem mem_insertDesc (o x : OrderRow) :
    ∀ l, x ∈ insertDesc o l ↔ x = o ∨ x ∈ l := by
  intro l
  induction l with
  | nil => simp [insertDesc]
  | cons a t ih =>
    rw [insertDesc]
    split
    · simp [List.mem_cons]
    · rw [List.mem_cons, ih, List.mem_cons]
      tauto

theorem mem_sortDesc (x : OrderRow) : ∀ l, x ∈ sortDesc l ↔ x ∈ l := by
  intro l
  induction l with
  | nil => simp [sortDesc]
  | cons a t ih =>
    rw [sortDesc, mem_insertDesc, ih, List.mem_cons]

theorem pairwise_insertDesc (o : OrderRow) :
    ∀ l, List.Pairwise (fun a b => b.createdAt ≤ a.createdAt) l →
      List.Pairwise (fun a b => b.createdAt ≤ a.createdAt)
        (insertDesc o l) := by
  intro l
  induction l with
  | nil =>
    intro _
    simp [insertDesc]
  | cons a t ih =>
    intro hp
    rcases List.pairwise_cons.mp hp with ⟨ha, ht⟩
    rw [insertDesc]
    split
    · rename_i hle
      refine List.pairwise_cons.mpr ⟨?_, hp⟩
      intro b hb
      rcases List.mem_cons.mp hb with hb1 | hb2
      · subst hb1
        exact hle
      · exact le_trans (ha b hb2) hle
    · rename_i hgt
      refine List.pairwise_cons.mpr ⟨?_, ih ht⟩
      intro b hb
      rcases (mem_insertDesc o b t).mp hb with hb1 | hb2
      · subst hb1
        omega
      · exact ha b hb2

theorem pairwise_sortDesc :
    ∀ l, List.Pairwise (fun a b => b.createdAt ≤ a.createdAt) (sortDesc l) := by
  intro l
  induction l with
  | nil => simp [sortDesc]
  | cons a t ih =>
    rw [sortDesc]
    exact pairwise_insertDesc a (sortDesc t) ih

theorem filterMap_total_getElem {α β : Type} (f : α → Option β) :
    ∀ (l : List α), (∀ x ∈ l, (f x).isSome = true) →
      ∀ n : Nat, (l.filterMap f)[n]? = (l[n]?).bind f := by
  intro l
  induction l with
  | nil =>
    intro _ n
    simp
  | cons a t ih =>
    intro h n
    rcases hfa : f a with _ | b
    · exfalso
      have ha := h a (by simp)
      rw [hfa] at ha
      cases ha
    · cases n with
      | zero => simp [List.filterMap_cons, hfa]
      | succ m =>
        simp only [List.filterMap_cons, hfa, List.getElem?_cons_succ]
        exact ih (fun x hx => h x (by simp [hx])) m

theorem rowOut_isSome (s : Store) (q : List Char) (o : OrderRow)
    (h : rowMatches s q o = true) : (rowOut s o).isSome = true := by
  unfold rowMatches at h
  unfold rowOut
  rcases hfu : s.users.find? (fun u => u.id == o.userId) with _ | u
  · rw [hfu] at h
    cases h
  · rw [hfu]
    rfl

theorem rowOut_created (s : Store) (o : OrderRow) (x : OrderOut)
    (h : rowOut s o = some x) : x.created_at = o.createdAt := by
  unfold rowOut at h
  rcases hfu : s.users.find? (fun u => u.id == o.userId) with _ | u
  · rw [hfu] at h
    cases h
  · rw [hfu] at h
    cases h
    rfl

/-- Counterexample for C7: the listing query orders only by created_at
descending with no secondary key, so two orders with equal timestamps
(ids 1 and 2, both created at time 5) come back in table order - id
ascending - not in the identifier-descending order the claim
requires. -/
theorem listing_tie_not_id_desc_cx :
    (queryOrders stTie 1 10 []).data.map (fun r => r.id) = [1, 2] ∧
    (queryOrders stTie 1 10 []).data.map (fun r => r.created_at) =
      [5, 5] := by
  decide

/-- C7 amended: the page slice starts at offset (page-1)*limit - element
n of the returned data is element offset+n of the full sorted listing -
and the returned orders are sorted by creation timestamp descending; the
code specifies no identifier tie-break, so equal timestamps appear in
table order and the result order for ties is not the claimed
identifier-descending one. -/
theorem listing_sorted_desc_and_offset (s : Store) (page lim : Int)
    (q : List Char) :
    List.Pairwise (fun a b : OrderOut => b.created_at ≤ a.created_at)
      (queryOrders s page lim q).data ∧
    (∀ n : Nat, ((queryOrders s page lim q).data)[n]? =
      if n < lim.toNat then
        ((sortDesc (s.orders.filter (rowMatches s q))).filterMap
          (rowOut s))[((page - 1) * lim).toNat + n]?
      else none) := by
  have hdata : (queryOrders s page lim q).data =
      (((sortDesc (s.orders.filter (rowMatches s q))).drop
          ((page - 1) * lim).toNat).take lim.toNat).filterMap (rowOut s) :=
    rfl
  have hmemL : ∀ x ∈ sortDesc (s.orders.filter (rowMatches s q)),
      rowMatches s q x = true := by
    intro x hx
    rw [mem_sortDesc] at hx
    exact (List.mem_filter.mp hx).2
  have hsome : ∀ x ∈ sortDesc (s.orders.filter (rowMatches s q)),
      (rowOut s x).isSome = true :=
    fun x hx => rowOut_isSome s q x (hmemL x hx)
  have hslice : (((sortDesc (s.orders.filter (rowMatches s q))).drop
      ((page - 1) * lim).toNat).take lim.toNat).Sublist
      (sortDesc (s.orders.filter (rowMatches s q))) :=
    (List.take_sublist _ _).trans (List.drop_sublist _ _)
  constructor
  · rw [hdata, List.pairwise_filterMap]
    have hpw := (pairwise_sortDesc (s.orders.filter (rowMatches s q))).sublist
      hslice
    refine hpw.imp ?_
    intro a b hab x hx y hy
    rw [rowOut_created s a x hx, rowOut_created s b y hy]
    exact hab
  · intro n
    rw [hdata]
    rw [filterMap_total_getElem (rowOut s) _
      (fun x hx => hsome x (hslice.mem hx)) n]
    rw [List.getElem?_take]
    split
    · rw [List.getElem?_drop]
      rw [filterMap_total_getElem (rowOut s) _ hsome
        (((page - 1) * lim).toNat + n)]
    · rfl
